import Mathlib

/-!
Verification of the LTI request-verification core (validator, launch
parameter schema/container, LTI request object, passport model) as a
shallow embedding.

Python strings are embedded as `List Char` (`PStr`); fallible code
returns `Except`; the replay cache and credential store are explicit
state; `time.time()` is an explicit `now : Int` argument.
-/

set_option maxRecDepth 4000

/-- Python strings, embedded as their character lists. -/
abbrev PStr := List Char

/-- Character class stripped by Python `str.strip()` (ASCII whitespace). -/
def pyIsSpace (c : Char) : Bool :=
  c = ' ' || c = '\t' || c = '\n' || c = '\r' || c = '\x0b' || c = '\x0c'

/-- Python `s.strip()`: drop leading and trailing whitespace. -/
def pyStrip (s : PStr) : PStr :=
  ((s.dropWhile pyIsSpace).reverse.dropWhile pyIsSpace).reverse

/-- Python `s.split(sep)` for a one-character separator: `List.splitOn`
has exactly Python's semantics (`"".split(",") == [""]`, empty chunks kept). -/
def pySplit (s : PStr) (sep : Char) : List PStr :=
  s.splitOn sep

/-- Python `sep.join(xs)` for a one-character separator. -/
def pyJoin (sep : Char) (xs : List PStr) : PStr :=
  [sep].intercalate xs

/-- Python `str.lower` on ASCII data (all strings compared by the code
under verification are ASCII). -/
def pyLower (s : PStr) : PStr :=
  s.map Char.toLower

/-- `dropWhile` is idempotent. -/
theorem dropWhile_dropWhile {α : Type} (p : α → Bool) (l : List α) :
    (l.dropWhile p).dropWhile p = l.dropWhile p := by
  induction l with
  | nil => rfl
  | cons a l ih =>
    cases h : p a with
    | true => simp [List.dropWhile_cons, h, ih]
    | false => simp [List.dropWhile_cons, h]

/-- A prefix of a list whose head does not satisfy `p` is unchanged by `dropWhile p`. -/
theorem dropWhile_eq_self_of_prefix {α : Type} {p : α → Bool} {s A : List α}
    (hA : A.dropWhile p = A) (hpre : s <+: A) : s.dropWhile p = s := by
  cases s with
  | nil => rfl
  | cons a t =>
    obtain ⟨u, hu⟩ := hpre
    have ha : p a = false := by
      cases h : p a with
      | false => rfl
      | true =>
        exfalso
        rw [← hu, List.cons_append, List.dropWhile_cons, if_pos h] at hA
        have hlen : (List.dropWhile p (t ++ u)).length ≤ (t ++ u).length :=
          (List.dropWhile_sublist p).length_le
        rw [hA] at hlen
        simp at hlen
    simp [List.dropWhile_cons, ha]

/-- Every character of a stripped string comes from the original string. -/
theorem mem_pyStrip {a : Char} {s : PStr} (h : a ∈ pyStrip s) : a ∈ s := by
  unfold pyStrip at h
  rw [List.mem_reverse] at h
  have h1 := (List.dropWhile_suffix pyIsSpace).sublist.subset h
  rw [List.mem_reverse] at h1
  exact (List.dropWhile_suffix pyIsSpace).sublist.subset h1

/-- Python `strip` is idempotent. -/
theorem pyStrip_idem (s : PStr) : pyStrip (pyStrip s) = pyStrip s := by
  have hA : (s.dropWhile pyIsSpace).dropWhile pyIsSpace = s.dropWhile pyIsSpace :=
    dropWhile_dropWhile pyIsSpace s
  have hpre : pyStrip s <+: s.dropWhile pyIsSpace := by
    obtain ⟨u, hu⟩ : ((s.dropWhile pyIsSpace).reverse).dropWhile pyIsSpace
        <:+ (s.dropWhile pyIsSpace).reverse := List.dropWhile_suffix pyIsSpace
    refine ⟨u.reverse, ?_⟩
    unfold pyStrip
    rw [← List.reverse_append, hu, List.reverse_reverse]
  have h1 : (pyStrip s).dropWhile pyIsSpace = pyStrip s :=
    dropWhile_eq_self_of_prefix hA hpre
  have h2 : (pyStrip s).reverse = (s.dropWhile pyIsSpace).reverse.dropWhile pyIsSpace := by
    unfold pyStrip
    rw [List.reverse_reverse]
  show ((((pyStrip s).dropWhile pyIsSpace).reverse).dropWhile pyIsSpace).reverse = pyStrip s
  rw [h1, h2, dropWhile_dropWhile, ← h2, List.reverse_reverse]

/-- Chunks produced by `splitOnP p` contain no element satisfying `p`. -/
theorem not_p_of_mem_splitOnP {α : Type} {p : α → Bool} :
    ∀ {xs l : List α}, l ∈ xs.splitOnP p → ∀ a ∈ l, p a = false := by
  intro xs
  induction xs with
  | nil =>
    intro l hl a ha
    rw [List.splitOnP_nil] at hl
    simp at hl
    subst hl
    simp at ha
  | cons x xs ih =>
    intro l hl a ha
    rw [List.splitOnP_cons] at hl
    cases hx : p x with
    | true =>
      rw [if_pos hx] at hl
      rcases List.mem_cons.mp hl with rfl | hl
      · simp at ha
      · exact ih hl a ha
    | false =>
      rw [if_neg (by simp [hx])] at hl
      cases hsp : xs.splitOnP p with
      | nil => exact absurd hsp (List.splitOnP_ne_nil p xs)
      | cons hd tl =>
        rw [hsp, List.modifyHead] at hl
        rcases List.mem_cons.mp hl with rfl | hl
        · rcases List.mem_cons.mp ha with rfl | ha
          · exact hx
          · exact ih (hsp ▸ List.mem_cons_self hd tl) a ha
        · exact ih (hsp ▸ List.mem_cons_of_mem hd hl) a ha

/-- Splitting on a separator, stripping each chunk, rejoining, resplitting and
restripping reproduces the stripped chunks: the serialization round trip for
list-valued parameters. -/
theorem split_strip_roundtrip (v : PStr) :
    (pySplit (pyJoin ',' ((pySplit v ',').map pyStrip)) ',').map pyStrip
      = (pySplit v ',').map pyStrip := by
  have hmem : ∀ l ∈ (pySplit v ',').map pyStrip, ',' ∉ l := by
    intro l hl hc
    obtain ⟨m, hm, rfl⟩ := List.mem_map.mp hl
    have hm' : m ∈ v.splitOnP (fun c => c == ',') := by
      simpa [pySplit, List.splitOn] using hm
    have := not_p_of_mem_splitOnP hm' ',' (mem_pyStrip hc)
    simp at this
  have hne : (pySplit v ',').map pyStrip ≠ [] := by
    cases h : pySplit v ',' with
    | nil =>
      exact absurd (by simpa [pySplit, List.splitOn] using h)
        (List.splitOnP_ne_nil (fun c => c == ',') v)
    | cons a l => simp [h]
  have h1 : (pyJoin ',' ((pySplit v ',').map pyStrip)).splitOn ',' =
      (pySplit v ',').map pyStrip :=
    List.splitOn_intercalate _ ',' hmem hne
  show ((pyJoin ',' ((pySplit v ',').map pyStrip)).splitOn ',').map pyStrip = _
  rw [h1]
  rw [List.map_map]
  exact List.map_congr_left fun m _ => pyStrip_idem m

/-! ### Parameter schema (`launch_params.py`)

The Python source stores the categories as `set`s and unions them; the
embedding uses lists, with `List.contains` as the membership query. -/

def DEFAULT_LTI_VERSION : PStr := "LTI-1.0".data

def SELECTION_PARAMS_MESSAGE_TYPE : PStr := "ContentItemSelectionRequest".data

def LAUNCH_PARAMS_REQUIRED : List String :=
  ["lti_message_type", "lti_version", "resource_link_id"]

def LAUNCH_PARAMS_RECOMMENDED : List String :=
  ["context_id", "context_label", "context_title", "context_type",
   "launch_presentation_css_url", "launch_presentation_document_target",
   "launch_presentation_height", "launch_presentation_locale",
   "launch_presentation_return_url", "launch_presentation_width",
   "lis_person_contact_email_primary", "lis_person_name_family",
   "lis_person_name_full", "lis_person_name_given", "resource_link_description",
   "resource_link_title", "roles", "role_scope_mentor",
   "tool_consumer_info_product_family_code", "tool_consumer_info_version",
   "tool_consumer_instance_contact_email", "tool_consumer_instance_description",
   "tool_consumer_instance_guid", "tool_consumer_instance_name",
   "tool_consumer_instance_url", "user_id", "user_image"]

def LAUNCH_PARAMS_LIS : List String :=
  ["lis_course_offering_sourcedid", "lis_course_section_sourcedid",
   "lis_outcome_service_url", "lis_person_sourcedid", "lis_result_sourcedid"]

def LAUNCH_PARAMS_RETURN_URL : List String :=
  ["lti_errorlog", "lti_errormsg", "lti_log", "lti_msg"]

def LAUNCH_PARAMS_OAUTH : List String :=
  ["oauth_callback", "oauth_consumer_key", "oauth_nonce", "oauth_signature",
   "oauth_signature_method", "oauth_timestamp", "oauth_token", "oauth_version"]

def LAUNCH_PARAMS_IS_LIST : List String :=
  ["accept_media_types", "accept_presentation_document_targets", "context_type",
   "role_scope_mentor", "roles"]

def LAUNCH_PARAMS_CANVAS : List String :=
  ["selection_directive", "text"]

def CONTENT_PARAMS_REQUEST : List String :=
  ["accept_copy_advice", "accept_media_types", "accept_multiple",
   "accept_presentation_document_targets", "accept_unsigned", "auto_create",
   "can_confirm", "content_item_return_url", "data", "title"]

def CONTENT_PARAMS_RESPONSE : List String :=
  ["content_items", "lti_errorlog", "lti_errormsg", "lti_log", "lti_msg"]

def REGISTRATION_PARAMS : List String :=
  ["reg_key", "reg_password", "tc_profile_url"]

/-- Union of all launch parameter categories (membership equals the Python set
union; duplicates across categories are harmless for membership queries). -/
def LAUNCH_PARAMS : List String :=
  CONTENT_PARAMS_REQUEST ++ CONTENT_PARAMS_RESPONSE ++ LAUNCH_PARAMS_CANVAS ++
  LAUNCH_PARAMS_LIS ++ LAUNCH_PARAMS_OAUTH ++ LAUNCH_PARAMS_RECOMMENDED ++
  LAUNCH_PARAMS_REQUIRED ++ LAUNCH_PARAMS_RETURN_URL ++ REGISTRATION_PARAMS

def SELECTION_PARAMS_REQUIRED : List String :=
  ["lti_message_type", "lti_version", "accept_media_types",
   "accept_presentation_document_targets", "content_item_return_url"]

def SELECTION_PARAMS_SHOULD_NOT_BE_PASSED : List String :=
  ["resource_link_id", "resource_link_title", "resource_link_description",
   "launch_presentation_return_url", "lis_result_sourcedid"]

/-- `SELECTION_PARAMS = LAUNCH_PARAMS - SELECTION_PARAMS_SHOULD_NOT_BE_PASSED`. -/
def SELECTION_PARAMS : List String :=
  LAUNCH_PARAMS.filter (fun p => !(SELECTION_PARAMS_SHOULD_NOT_BE_PASSED.contains p))

/-! ### Parameter container (`ParamsMixins`) -/

/-- A parameter value as surfaced to readers: the raw string, or — for
list-valued parameters — the comma-split, whitespace-trimmed list. -/
inductive ParamValue
  | str (s : PStr)
  | list (l : List PStr)
deriving DecidableEq, BEq

/-- Schema errors raised during container construction or mutation
(`InvalidParamException` / `MissingParamException`, carrying the key name). -/
inductive ParamError
  | invalid (k : String)
  | missing (k : String)
deriving DecidableEq, BEq

/-- The underlying `dict`: an insertion-ordered association list with unique
keys maintained by `storeSet`. -/
abbrev ParamStore := List (String × PStr)

/-- Python `dict` lookup. -/
def storeGet : ParamStore → String → Option PStr
  | [], _ => none
  | kv :: rest, k => if kv.1 = k then some kv.2 else storeGet rest k

/-- Python `dict` insertion: overwrite in place, else append. -/
def storeSet : ParamStore → String → PStr → ParamStore
  | [], k, v => [(k, v)]
  | kv :: rest, k, v => if kv.1 = k then (k, v) :: rest else kv :: storeSet rest k v

/-- Python `s.startswith(pre)`. -/
def pyStartsWith (s pre : String) : Bool :=
  pre.data.isPrefixOf s.data

/-- `ParamsMixins.valid_param`: vendor-prefixed keys are always allowed,
other keys must be whitelisted. -/
def valid_param (allowed : List String) (param : String) : Bool :=
  pyStartsWith param "custom_" || pyStartsWith param "ext_" || allowed.contains param

/-- `ParamsMixins.__setitem__` for string values (the only values arising from
wire input and from re-parsing the urlencoded form; the branch re-joining
Python `list` values cannot fire on string values): validate the key,
then insert. -/
def setItem (allowed : List String) (st : ParamStore) (k : String) (v : PStr) :
    Except ParamError ParamStore :=
  if valid_param allowed k then .ok (storeSet st k v) else .error (.invalid k)

/-- `MutableMapping.update`: assign each raw pair in order via `__setitem__`;
a raised schema error propagates (`Except.bind`). -/
def updateParams (allowed : List String) : ParamStore →
    List (String × PStr) → Except ParamError ParamStore
  | st, [] => .ok st
  | st, (k, v) :: rest =>
    (setItem allowed st k v).bind (fun st1 => updateParams allowed st1 rest)

/-- `ParamsMixins._param_value`: list-valued keys are comma-split and each
element stripped; other keys return the raw string. -/
def param_value (isList : List String) (st : ParamStore) (k : String) :
    Option ParamValue :=
  (storeGet st k).map (fun v =>
    if isList.contains k then .list ((pySplit v ',').map pyStrip) else .str v)

/-- `MutableMapping.__contains__` (via `__getitem__`): a key is `in` the
container iff it is schema-valid and present. -/
def memParams (allowed : List String) (st : ParamStore) (k : String) : Bool :=
  valid_param allowed k && (storeGet st k).isSome

/-- The `for k in self.keys()` re-validation loop of `ParamsMixins.__init__`:
raise `InvalidParamException` for the first stored key that is not valid. -/
def checkKeysValid (allowed : List String) (st : ParamStore) :
    Except ParamError ParamStore :=
  match st.find? (fun kv => !(valid_param allowed kv.1)) with
  | some kv => .error (.invalid kv.1)
  | none => .ok st

/-- The `for param in self.params_required` loop of `ParamsMixins.__init__`:
raise `MissingParamException` for the first required key not `in` the
container. -/
def checkRequired (allowed required : List String) (st : ParamStore) :
    Except ParamError ParamStore :=
  match required.find? (fun p => !(memParams allowed st p)) with
  | some p => .error (.missing p)
  | none => .ok st

/-- `ParamsMixins.__init__`: populate from the raw mapping via `update`
(each insert validates its key), re-check key validity, then check that every
required key is present; the first violation raises. -/
def paramsInit (allowed required : List String) (raw : List (String × PStr)) :
    Except ParamError ParamStore :=
  (updateParams allowed [] raw).bind
    (fun st => (checkKeysValid allowed st).bind (checkRequired allowed required))

/-- `LaunchParams`: the launch-request container variant. -/
def LaunchParams_init (raw : List (String × PStr)) : Except ParamError ParamStore :=
  paramsInit LAUNCH_PARAMS LAUNCH_PARAMS_REQUIRED raw

/-- `SelectionParams`: the content-item selection container variant. -/
def SelectionParams_init (raw : List (String × PStr)) : Except ParamError ParamStore :=
  paramsInit SELECTION_PARAMS SELECTION_PARAMS_REQUIRED raw

/-- `ParamsMixins.urlencoded`, modeled up to percent-encoding: `urlencode`
escapes each key and value and joins them with `=` and `&`, and form-parsing
inverts the escaping, so the form is modeled as the ordered key/value pairs it
encodes. Each value is read through `__getitem__` (`dict(self)`) and list
values are re-joined with `,`. -/
def urlencoded (isList : List String) (st : ParamStore) : List (String × PStr) :=
  st.map (fun kv =>
    (kv.1, if isList.contains kv.1
      then pyJoin ',' ((pySplit kv.2 ',').map pyStrip)
      else kv.2))

/-! ### Store lemmas -/

theorem storeGet_storeSet_self (st : ParamStore) (k : String) (v : PStr) :
    storeGet (storeSet st k v) k = some v := by
  induction st with
  | nil => simp [storeSet, storeGet]
  | cons kv rest ih =>
    by_cases h : kv.1 = k
    · simp [storeSet, h, storeGet]
    · simp [storeSet, h, storeGet, ih]

theorem storeGet_storeSet_ne (st : ParamStore) {k k' : String} (h : k ≠ k') (v : PStr) :
    storeGet (storeSet st k v) k' = storeGet st k' := by
  induction st with
  | nil => simp [storeSet, storeGet, h]
  | cons kv rest ih =>
    by_cases h1 : kv.1 = k
    · simp [storeSet, h1, storeGet, h]
    · simp only [storeSet, if_neg h1, storeGet]
      by_cases h2 : kv.1 = k'
      · simp [h2]
      · simp [h2, ih]

theorem mem_storeSet {kv' : String × PStr} {st : ParamStore} {k : String} {v : PStr}
    (h : kv' ∈ storeSet st k v) : kv' = (k, v) ∨ kv' ∈ st := by
  induction st with
  | nil => simpa [storeSet] using h
  | cons kv rest ih =>
    by_cases h1 : kv.1 = k
    · simp only [storeSet, if_pos h1] at h
      rcases List.mem_cons.mp h with rfl | h
      · exact Or.inl rfl
      · exact Or.inr (List.mem_cons_of_mem _ h)
    · simp only [storeSet, if_neg h1] at h
      rcases List.mem_cons.mp h with rfl | h
      · exact Or.inr (List.mem_cons_self _ _)
      · rcases ih h with h | h
        · exact Or.inl h
        · exact Or.inr (List.mem_cons_of_mem _ h)

theorem storeGet_isSome_of_mem {st : ParamStore} {k : String} {v : PStr}
    (h : (k, v) ∈ st) : (storeGet st k).isSome = true := by
  induction st with
  | nil => simp at h
  | cons kv rest ih =>
    rcases List.mem_cons.mp h with rfl | h
    · simp [storeGet]
    · by_cases h1 : kv.1 = k
      · simp [storeGet, h1]
      · simp [storeGet, h1, ih h]

theorem storeGet_append (a b : ParamStore) (k : String) :
    storeGet (a ++ b) k =
      match storeGet a k with
      | some v => some v
      | none => storeGet b k := by
  induction a with
  | nil => simp [storeGet]
  | cons kv rest ih =>
    by_cases h : kv.1 = k
    · simp [storeGet, h]
    · simp [storeGet, h, ih]

theorem storeSet_append_of_absent {st : ParamStore} {k : String}
    (h : storeGet st k = none) (v : PStr) : storeSet st k v = st ++ [(k, v)] := by
  induction st with
  | nil => simp [storeSet]
  | cons kv rest ih =>
    by_cases h1 : kv.1 = k
    · simp [storeGet, h1] at h
    · simp only [storeGet, if_neg h1] at h
      simp [storeSet, h1, ih h]

theorem nodup_keys_storeSet {st : ParamStore} (h : (st.map Prod.fst).Nodup)
    (k : String) (v : PStr) : ((storeSet st k v).map Prod.fst).Nodup := by
  induction st with
  | nil => simp [storeSet]
  | cons kv rest ih =>
    simp only [List.map_cons, List.nodup_cons] at h
    by_cases h1 : kv.1 = k
    · subst h1
      simpa [storeSet] using h
    · simp only [storeSet, if_neg h1, List.map_cons, List.nodup_cons]
      refine ⟨?_, ih h.2⟩
      intro hmem
      obtain ⟨kv', hkv', hfst⟩ := List.mem_map.mp hmem
      rcases mem_storeSet hkv' with rfl | hkv'
      · exact h1 hfst.symm
      · exact h.1 (List.mem_map.mpr ⟨kv', hkv', hfst⟩)

theorem storeGet_map_values (g : String → PStr → PStr) (st : ParamStore) (k : String) :
    storeGet (st.map (fun kv => (kv.1, g kv.1 kv.2))) k = (storeGet st k).map (g k) := by
  induction st with
  | nil => simp [storeGet]
  | cons kv rest ih =>
    by_cases h : kv.1 = k
    · subst h
      simp [storeGet]
    · simp [storeGet, h, ih]

theorem storeGet_mem {st : ParamStore} {k : String} {v : PStr}
    (h : storeGet st k = some v) : (k, v) ∈ st := by
  induction st with
  | nil => simp [storeGet] at h
  | cons kv rest ih =>
    by_cases h1 : kv.1 = k
    · rw [storeGet, if_pos h1] at h
      injection h with h
      have hkv : kv = (k, v) := by
        obtain ⟨a, b⟩ := kv
        simp only at h1 h
        rw [h1, h]
      rw [← hkv]
      exact List.mem_cons_self kv rest
    · rw [storeGet, if_neg h1] at h
      exact List.mem_cons_of_mem _ (ih h)

/-! ### `updateParams` lemmas -/

theorem updateParams_nil (allowed : List String) (st : ParamStore) :
    updateParams allowed st [] = .ok st := rfl

theorem updateParams_cons (allowed : List String) (st : ParamStore) (k : String)
    (v : PStr) (rest : List (String × PStr)) :
    updateParams allowed st ((k, v) :: rest) =
      (setItem allowed st k v).bind (fun st1 => updateParams allowed st1 rest) := rfl

theorem updateParams_cons_valid (allowed : List String) (st : ParamStore)
    (k : String) (v : PStr) (rest : List (String × PStr))
    (h : valid_param allowed k = true) :
    updateParams allowed st ((k, v) :: rest) =
      updateParams allowed (storeSet st k v) rest := by
  have hs : setItem allowed st k v = .ok (storeSet st k v) := by
    rw [setItem, if_pos h]
  rw [updateParams_cons, hs]
  rfl

theorem updateParams_cons_invalid (allowed : List String) (st : ParamStore)
    (k : String) (v : PStr) (rest : List (String × PStr))
    (h : ¬valid_param allowed k = true) :
    updateParams allowed st ((k, v) :: rest) = .error (.invalid k) := by
  have hs : setItem allowed st k v = .error (.invalid k) := by
    rw [setItem, if_neg h]
  rw [updateParams_cons, hs]
  rfl

theorem updateParams_ok_iff (allowed : List String) (st : ParamStore)
    (raw : List (String × PStr)) :
    (∃ st', updateParams allowed st raw = .ok st') ↔
      ∀ kv ∈ raw, valid_param allowed kv.1 = true := by
  induction raw generalizing st with
  | nil =>
    rw [updateParams_nil]
    simp
  | cons kv rest ih =>
    obtain ⟨k, v⟩ := kv
    by_cases h : valid_param allowed k = true
    · rw [updateParams_cons_valid allowed st k v rest h, ih]
      constructor
      · intro hall kv hkv
        rcases List.mem_cons.mp hkv with rfl | hkv
        · exact h
        · exact hall kv hkv
      · intro hall kv hkv
        exact hall kv (List.mem_cons_of_mem _ hkv)
    · rw [updateParams_cons_invalid allowed st k v rest h]
      constructor
      · rintro ⟨st', hst'⟩
        simp at hst'
      · intro hall
        exact absurd (hall (k, v) (List.mem_cons_self _ _)) h

theorem updateParams_error (allowed : List String) (st : ParamStore)
    (raw : List (String × PStr)) (e : ParamError)
    (h : updateParams allowed st raw = .error e) :
    ∃ k, e = ParamError.invalid k ∧ valid_param allowed k = false ∧
      raw.any (fun kv => kv.1 = k) = true := by
  induction raw generalizing st with
  | nil =>
    rw [updateParams_nil] at h
    simp at h
  | cons kv rest ih =>
    obtain ⟨k, v⟩ := kv
    by_cases hv : valid_param allowed k = true
    · rw [updateParams_cons_valid allowed st k v rest hv] at h
      obtain ⟨k', rfl, hval, hany⟩ := ih _ h
      exact ⟨k', rfl, hval, by simp [hany]⟩
    · rw [updateParams_cons_invalid allowed st k v rest hv] at h
      injection h with h
      subst h
      exact ⟨k, rfl, by simpa using hv, by simp⟩

theorem updateParams_isSome (allowed : List String) (st st' : ParamStore)
    (raw : List (String × PStr)) (h : updateParams allowed st raw = .ok st')
    (k : String) :
    (storeGet st' k).isSome =
      ((storeGet st k).isSome || raw.any (fun kv => kv.1 = k)) := by
  induction raw generalizing st with
  | nil =>
    rw [updateParams_nil] at h
    injection h with h
    subst h
    simp
  | cons kv rest ih =>
    obtain ⟨k0, v0⟩ := kv
    by_cases hv : valid_param allowed k0 = true
    · rw [updateParams_cons_valid allowed st k0 v0 rest hv] at h
      rw [ih _ h]
      by_cases hk : k0 = k
      · subst hk
        simp [storeGet_storeSet_self]
      · simp [storeGet_storeSet_ne st hk, hk]
    · rw [updateParams_cons_invalid allowed st k0 v0 rest hv] at h
      simp at h

theorem updateParams_entries_valid (allowed : List String) {st st' : ParamStore}
    {raw : List (String × PStr)}
    (hst : ∀ kv ∈ st, valid_param allowed kv.1 = true)
    (h : updateParams allowed st raw = .ok st') :
    ∀ kv ∈ st', valid_param allowed kv.1 = true := by
  induction raw generalizing st with
  | nil =>
    rw [updateParams_nil] at h
    injection h with h
    subst h
    exact hst
  | cons kv rest ih =>
    obtain ⟨k0, v0⟩ := kv
    by_cases hv : valid_param allowed k0 = true
    · rw [updateParams_cons_valid allowed st k0 v0 rest hv] at h
      refine ih ?_ h
      intro kv hkv
      rcases mem_storeSet hkv with rfl | hkv
      · exact hv
      · exact hst kv hkv
    · rw [updateParams_cons_invalid allowed st k0 v0 rest hv] at h
      simp at h

theorem updateParams_nodup_keys (allowed : List String) {st st' : ParamStore}
    {raw : List (String × PStr)} (hst : (st.map Prod.fst).Nodup)
    (h : updateParams allowed st raw = .ok st') :
    (st'.map Prod.fst).Nodup := by
  induction raw generalizing st with
  | nil =>
    rw [updateParams_nil] at h
    injection h with h
    subst h
    exact hst
  | cons kv rest ih =>
    obtain ⟨k0, v0⟩ := kv
    by_cases hv : valid_param allowed k0 = true
    · rw [updateParams_cons_valid allowed st k0 v0 rest hv] at h
      exact ih (nodup_keys_storeSet hst k0 v0) h
    · rw [updateParams_cons_invalid allowed st k0 v0 rest hv] at h
      simp at h

theorem updateParams_append (allowed : List String) (acc : ParamStore)
    (raw : List (String × PStr))
    (hdisj : ∀ kv ∈ raw, storeGet acc kv.1 = none)
    (hnodup : (raw.map Prod.fst).Nodup)
    (hvalid : ∀ kv ∈ raw, valid_param allowed kv.1 = true) :
    updateParams allowed acc raw = .ok (acc ++ raw) := by
  induction raw generalizing acc with
  | nil =>
    rw [updateParams_nil]
    simp
  | cons kv rest ih =>
    obtain ⟨k0, v0⟩ := kv
    have hv : valid_param allowed k0 = true :=
      hvalid (k0, v0) (List.mem_cons_self (k0, v0) rest)
    rw [updateParams_cons_valid allowed acc k0 v0 rest hv]
    rw [storeSet_append_of_absent (hdisj (k0, v0) (List.mem_cons_self (k0, v0) rest)) v0]
    simp only [List.map_cons, List.nodup_cons] at hnodup
    rw [ih (acc ++ [(k0, v0)])
      (by
        intro kv hkv
        rw [storeGet_append]
        rw [hdisj kv (List.mem_cons_of_mem _ hkv)]
        have hne : k0 ≠ kv.1 := by
          intro hcontra
          exact hnodup.1 (List.mem_map.mpr ⟨kv, hkv, hcontra.symm⟩)
        simp [storeGet, hne])
      hnodup.2
      (fun kv hkv => hvalid kv (List.mem_cons_of_mem _ hkv))]
    simp

/-! ### `paramsInit` lemmas -/

theorem checkKeysValid_ok (allowed : List String) {st : ParamStore}
    (h : ∀ kv ∈ st, valid_param allowed kv.1 = true) :
    checkKeysValid allowed st = .ok st := by
  unfold checkKeysValid
  rw [List.find?_eq_none.mpr (by intro kv hkv; simp [h kv hkv])]

theorem checkRequired_ok (allowed required : List String) {st : ParamStore}
    (h : ∀ p ∈ required, memParams allowed st p = true) :
    checkRequired allowed required st = .ok st := by
  unfold checkRequired
  rw [List.find?_eq_none.mpr (by intro p hp; simp [h p hp])]

theorem checkRequired_eq_ok {allowed required : List String} {st st' : ParamStore}
    (h : checkRequired allowed required st = .ok st') :
    st' = st ∧ ∀ p ∈ required, memParams allowed st p = true := by
  unfold checkRequired at h
  cases hf : required.find? (fun p => !(memParams allowed st p)) with
  | some p => rw [hf] at h; simp at h
  | none =>
    rw [hf] at h
    injection h with h
    subst h
    refine ⟨rfl, ?_⟩
    intro p hp
    have := List.find?_eq_none.mp hf p hp
    simpa using this

theorem checkRequired_eq_error {allowed required : List String} {st : ParamStore}
    {e : ParamError} (h : checkRequired allowed required st = .error e) :
    ∃ p, e = .missing p ∧ p ∈ required ∧ memParams allowed st p = false := by
  unfold checkRequired at h
  cases hf : required.find? (fun p => !(memParams allowed st p)) with
  | some p =>
    rw [hf] at h
    injection h with h
    refine ⟨p, h.symm, List.mem_of_find?_eq_some hf, ?_⟩
    have := List.find?_some hf
    simpa using this
  | none => rw [hf] at h; simp at h

/-- Characterization of `ParamsMixins.__init__` over an arbitrary schema:
success exactly when all keys are allowed and all required keys supplied;
each failure mode names an offending key, and a successfully built container
satisfies the schema invariant. -/
theorem paramsInit_spec (allowed required : List String)
    (raw : List (String × PStr)) :
    ((∃ st, paramsInit allowed required raw = .ok st) ↔
      ((∀ kv ∈ raw, valid_param allowed kv.1 = true) ∧
        ∀ p ∈ required, raw.any (fun kv => kv.1 = p) = true)) ∧
    (∀ k, paramsInit allowed required raw = .error (.invalid k) →
      valid_param allowed k = false ∧ raw.any (fun kv => kv.1 = k) = true) ∧
    ((∀ kv ∈ raw, valid_param allowed kv.1 = true) →
      ∀ p, paramsInit allowed required raw = .error (.missing p) →
        p ∈ required ∧ raw.any (fun kv => kv.1 = p) = false) ∧
    ((∃ kv ∈ raw, valid_param allowed kv.1 = false) →
      ∃ k, paramsInit allowed required raw = .error (.invalid k)) ∧
    ((∀ kv ∈ raw, valid_param allowed kv.1 = true) →
      (∃ p ∈ required, raw.any (fun kv => kv.1 = p) = false) →
      ∃ p, paramsInit allowed required raw = .error (.missing p)) ∧
    (∀ st, paramsInit allowed required raw = .ok st →
      (∀ kv ∈ st, valid_param allowed kv.1 = true) ∧
        ∀ p ∈ required, memParams allowed st p = true) := by
  have hreqmem : ∀ {st0 : ParamStore}, updateParams allowed [] raw = .ok st0 →
      ∀ p, (storeGet st0 p).isSome = raw.any (fun kv => kv.1 = p) := by
    intro st0 hU p
    rw [updateParams_isSome allowed [] st0 raw hU p]
    simp [storeGet]
  have hvalid_of_any : (∀ kv ∈ raw, valid_param allowed kv.1 = true) →
      ∀ p, raw.any (fun kv => kv.1 = p) = true → valid_param allowed p = true := by
    intro hall p hany
    obtain ⟨kv, hkv, hp⟩ := List.any_eq_true.mp hany
    exact (of_decide_eq_true hp) ▸ hall kv hkv
  refine ⟨?_, ?_, ?_, ?_, ?_, ?_⟩
  · constructor
    · rintro ⟨st, hok⟩
      cases hU : updateParams allowed [] raw with
      | error e =>
        rw [paramsInit, hU] at hok
        simp [Except.bind] at hok
      | ok st0 =>
        have hall : ∀ kv ∈ raw, valid_param allowed kv.1 = true :=
          (updateParams_ok_iff allowed [] raw).mp ⟨st0, hU⟩
        refine ⟨hall, ?_⟩
        have hv0 : ∀ kv ∈ st0, valid_param allowed kv.1 = true :=
          updateParams_entries_valid allowed (by simp) hU
        rw [paramsInit, hU] at hok
        simp only [Except.bind, checkKeysValid_ok allowed hv0] at hok
        intro p hp
        have := (checkRequired_eq_ok hok).2 p hp
        rw [memParams, Bool.and_eq_true] at this
        rw [← hreqmem hU p]
        exact this.2
    · rintro ⟨hall, hreq⟩
      obtain ⟨st0, hU⟩ := (updateParams_ok_iff allowed [] raw).mpr hall
      have hv0 : ∀ kv ∈ st0, valid_param allowed kv.1 = true :=
        updateParams_entries_valid allowed (by simp) hU
      refine ⟨st0, ?_⟩
      rw [paramsInit, hU]
      simp only [Except.bind, checkKeysValid_ok allowed hv0]
      refine checkRequired_ok allowed required ?_
      intro p hp
      rw [memParams, Bool.and_eq_true]
      exact ⟨hvalid_of_any hall p (hreq p hp), (hreqmem hU p).symm ▸ hreq p hp⟩
  · intro k h
    cases hU : updateParams allowed [] raw with
    | error e =>
      rw [paramsInit, hU] at h
      simp only [Except.bind] at h
      injection h with h
      subst h
      obtain ⟨k', hk', hval, hany⟩ := updateParams_error allowed [] raw _ hU
      injection hk' with hkk
      subst hkk
      exact ⟨hval, hany⟩
    | ok st0 =>
      have hv0 : ∀ kv ∈ st0, valid_param allowed kv.1 = true :=
        updateParams_entries_valid allowed (by simp) hU
      rw [paramsInit, hU] at h
      simp only [Except.bind, checkKeysValid_ok allowed hv0] at h
      obtain ⟨p, hp, _, _⟩ := checkRequired_eq_error h
      simp at hp
  · intro hall p h
    obtain ⟨st0, hU⟩ := (updateParams_ok_iff allowed [] raw).mpr hall
    have hv0 : ∀ kv ∈ st0, valid_param allowed kv.1 = true :=
      updateParams_entries_valid allowed (by simp) hU
    rw [paramsInit, hU] at h
    simp only [Except.bind, checkKeysValid_ok allowed hv0] at h
    obtain ⟨q, hq, hqmem, hqfalse⟩ := checkRequired_eq_error h
    injection hq with hqq
    subst hqq
    refine ⟨hqmem, ?_⟩
    cases hany : raw.any (fun kv => kv.1 = p) with
    | false => rfl
    | true =>
      exfalso
      have h1 : valid_param allowed p = true := hvalid_of_any hall p hany
      have h2 : (storeGet st0 p).isSome = true := by rw [hreqmem hU p]; exact hany
      rw [memParams, h1, h2] at hqfalse
      simp at hqfalse
  · rintro ⟨kv, hkv, hbad⟩
    cases hU : updateParams allowed [] raw with
    | error e =>
      obtain ⟨k, rfl, _, _⟩ := updateParams_error allowed [] raw _ hU
      refine ⟨k, ?_⟩
      rw [paramsInit, hU]
      rfl
    | ok st0 =>
      exfalso
      have hall : ∀ kv ∈ raw, valid_param allowed kv.1 = true :=
        (updateParams_ok_iff allowed [] raw).mp ⟨st0, hU⟩
      exact absurd (hall kv hkv) (by simp [hbad])
  · rintro hall ⟨p, hp, hany⟩
    obtain ⟨st0, hU⟩ := (updateParams_ok_iff allowed [] raw).mpr hall
    have hv0 : ∀ kv ∈ st0, valid_param allowed kv.1 = true :=
      updateParams_entries_valid allowed (by simp) hU
    cases hcr : checkRequired allowed required st0 with
    | error e =>
      obtain ⟨q, rfl, _, _⟩ := checkRequired_eq_error hcr
      refine ⟨q, ?_⟩
      rw [paramsInit, hU]
      simp only [Except.bind, checkKeysValid_ok allowed hv0]
      exact hcr
    | ok st1 =>
      exfalso
      have := (checkRequired_eq_ok hcr).2 p hp
      rw [memParams, Bool.and_eq_true, hreqmem hU p, hany] at this
      simp at this
  · intro st h
    cases hU : updateParams allowed [] raw with
    | error e =>
      rw [paramsInit, hU] at h
      simp [Except.bind] at h
    | ok st0 =>
      have hv0 : ∀ kv ∈ st0, valid_param allowed kv.1 = true :=
        updateParams_entries_valid allowed (by simp) hU
      rw [paramsInit, hU] at h
      simp only [Except.bind, checkKeysValid_ok allowed hv0] at h
      obtain ⟨rfl, hreq⟩ := checkRequired_eq_ok h
      exact ⟨hv0, hreq⟩

deriving instance DecidableEq for Except

/-! ### The LTI request object (`lti.py`) and validator (`validator.py`) -/

/-- Failure modes of the LTI object and its collaborators:
`LTIRequestNotVerifiedException`, `LTIException("LTI verification failed")`,
`LTIException` wrapping a parameter-processing error, Python `TypeError`,
and the ORM `DoesNotExist` / `MultipleObjectsReturned` lookup errors. -/
inductive PyError
  | notVerified
  | verificationFailed
  | processParams (e : ParamError)
  | typeError
  | doesNotExist
  | multipleObjectsReturned
deriving DecidableEq, BEq

/-- The mutable attributes of an `LTI` object, plus the schema of the stored
container (`LaunchParams` and `SelectionParams` differ only in their
`params_allowed` / `params_required`; both share `LAUNCH_PARAMS_IS_LIST`). -/
structure LTIState where
  valid : Option Bool
  allowed : List String
  params : ParamStore
  verified : Bool
deriving DecidableEq

/-- `LTI.__init__`: `_valid = None`, `_params = {}`, `_verified = False`. -/
def LTI_init : LTIState :=
  { valid := none, allowed := LAUNCH_PARAMS, params := [], verified := false }

/-- `MutableMapping.get` on a parameter container: `__getitem__` raises
`KeyError` both for a schema-invalid key and for an absent key, and `get`
catches it; `none` here means "no stored value, the caller's default applies". -/
def paramsGet (allowed isList : List String) (st : ParamStore) (k : String) :
    Option ParamValue :=
  if valid_param allowed k then param_value isList st k else none

/-- `LTI.get_param`: raises the not-verified error before a successful
`verify()`, otherwise `self._params.get(name, default)`. -/
def get_param (st : LTIState) (name : String) (default : Option ParamValue) :
    Except PyError (Option ParamValue) :=
  if st.verified = false then .error .notVerified
  else .ok (match paramsGet st.allowed LAUNCH_PARAMS_IS_LIST st.params name with
    | some v => some v
    | none => default)

/-- `LTI._process_params`: select the schema by comparing the raw
`lti_message_type` field against the selection sentinel
(`LTIMessageType.SELECTION_REQUEST`, whose value is the
`SELECTION_PARAMS_MESSAGE_TYPE` constant), build the container, and wrap any
schema error in an `LTIException`. Returns the selected schema's allowed set
together with the built container. -/
def _process_params (raw : ParamStore) :
    Except PyError (List String × ParamStore) :=
  let is_selection_request :=
    storeGet raw "lti_message_type" == some SELECTION_PARAMS_MESSAGE_TYPE
  match (if is_selection_request then SelectionParams_init raw
         else LaunchParams_init raw) with
  | .error e => .error (.processParams e)
  | .ok st =>
    .ok (if is_selection_request then SELECTION_PARAMS else LAUNCH_PARAMS, st)

/-- `LTI.verify`: process parameters, run the OAuth1 signature endpoint
(external to this module — its verdict is the `oauthValid` argument), assign
`_valid`, raise on failure, and only on success store the container and set
`_verified`. Returns the mutated object state together with the raised
exception, if any. -/
def verify (st : LTIState) (raw : ParamStore) (oauthValid : Bool) :
    LTIState × Option PyError :=
  match _process_params raw with
  | .error e => (st, some e)
  | .ok pr =>
    let st1 : LTIState := { st with valid := some oauthValid }
    if oauthValid = true then
      ({ st1 with allowed := pr.1, params := pr.2, verified := true }, none)
    else (st1, some .verificationFailed)

/-- `LTI.is_valid`: `self._verified and self._valid` as a truth value. -/
def is_valid (st : LTIState) : Bool :=
  st.verified && st.valid == some true

/-- Modelled from the spec: the role enumeration `LTIRole` (imported by
`lti.py` but absent from the sources). Spec section 4.1 lists the roles
Student, Learner, Instructor, Teacher, Staff, Administrator with
case-insensitive matching against the lower-cased `roles` list, so the
constants are the lower-cased role names. -/
def LTIRole.STUDENT : PStr := "student".data

def LTIRole.LEARNER : PStr := "learner".data

def LTIRole.INSTRUCTOR : PStr := "instructor".data

def LTIRole.TEACHER : PStr := "teacher".data

def LTIRole.STAFF : PStr := "staff".data

def LTIRole.ADMINISTRATOR : PStr := "administrator".data

/-- `LTI.roles`: `get_param("roles", [])`, then `list(map(str.lower, ...))`.
The `roles` key is list-valued, so a stored value surfaces as a list; the
string branch mirrors Python's `map` over a string (iterating characters)
and is unreachable, as is the `None` branch (the default is `[]`). -/
def roles (st : LTIState) : Except PyError (List PStr) :=
  match get_param st "roles" (some (.list [])) with
  | .error e => .error e
  | .ok (some (.list xs)) => .ok (xs.map pyLower)
  | .ok (some (.str s)) => .ok ((s.map Char.toLower).map (fun c => [c]))
  | .ok none => .error .typeError

/-- `LTI._has_any_of_roles`: `not roles.isdisjoint(self.roles)`. -/
def _has_any_of_roles (st : LTIState) (rs : List PStr) : Except PyError Bool :=
  match roles st with
  | .error e => .error e
  | .ok userRoles => .ok (rs.any (fun r => userRoles.contains r))

/-- `LTI.is_student`. -/
def is_student (st : LTIState) : Except PyError Bool :=
  _has_any_of_roles st [LTIRole.STUDENT, LTIRole.LEARNER]

/-- `LTI.is_instructor`. -/
def is_instructor (st : LTIState) : Except PyError Bool :=
  _has_any_of_roles st [LTIRole.INSTRUCTOR, LTIRole.TEACHER, LTIRole.STAFF]

/-- `LTI.is_administrator`. -/
def is_administrator (st : LTIState) : Except PyError Bool :=
  _has_any_of_roles st [LTIRole.ADMINISTRATOR]

/-- `LTI.can_edit_content`: `is_administrator or is_instructor`
(short-circuiting). -/
def can_edit_content (st : LTIState) : Except PyError Bool :=
  match is_administrator st with
  | .error e => .error e
  | .ok a => if a then .ok true else is_instructor st

/-- The part of a string following the anchored regex head `course-v[0-9]:`,
when it matches at position 0. -/
def edxAfterColon : PStr → Option PStr
  | 'c' :: 'o' :: 'u' :: 'r' :: 's' :: 'e' :: '-' :: 'v' :: d :: ':' :: rest =>
    if d.isDigit then some rest else none
  | _ => none

/-- `re.search(r"^course-v[0-9]:.*$", s)` as a truth value: `^` anchors to the
string start (no MULTILINE), `.` excludes newlines, and `$` matches at the end
of the string or just before a single trailing newline. -/
def edxSearch (s : PStr) : Bool :=
  match edxAfterColon s with
  | none => false
  | some rest =>
    let nf := rest.takeWhile (fun c => c != '\n')
    rest == nf || rest == nf ++ ['\n']

/-- `re.match(r"^course-v[0-9]:(.*)", s)` group 1: the maximal newline-free
run after the matched head. -/
def edxMatchGroup1 (s : PStr) : Option PStr :=
  (edxAfterColon s).map (fun rest => rest.takeWhile (fun c => c != '\n'))

/-- `LTI.is_edx_format`: `re.search` over `get_param("context_id")`; when the
parameter is absent the default `None` is passed to `re.search`, which raises
`TypeError`. The list branch is unreachable (`context_id` is not
list-valued). -/
def is_edx_format (st : LTIState) : Except PyError Bool :=
  match get_param st "context_id" none with
  | .error e => .error e
  | .ok none => .error .typeError
  | .ok (some (.str cid)) => .ok (edxSearch cid)
  | .ok (some (.list _)) => .error .typeError

/-- `LTI.is_moodle_format`:
`get_param("tool_consumer_info_product_family_code", "") == "moodle"`. -/
def is_moodle_format (st : LTIState) : Except PyError Bool :=
  match get_param st "tool_consumer_info_product_family_code"
      (some (.str [])) with
  | .error e => .error e
  | .ok v => .ok (v == some (.str "moodle".data))

/-- `LTI.context_title`: `get_param("context_title",
self.get_param("context_id"))` — the inner call computes the default. -/
def context_title (st : LTIState) : Except PyError (Option ParamValue) :=
  match get_param st "context_id" none with
  | .error e => .error e
  | .ok d => get_param st "context_title" d

/-- The dictionary returned by `LTI.get_course_info`. -/
structure CourseInfo where
  school_name : Option ParamValue
  course_name : Option ParamValue
  course_run : Option ParamValue
deriving DecidableEq

/-- The final `return` of `LTI.get_course_info`: the non-edX fallback. -/
def course_info_fallback (st : LTIState) : Except PyError CourseInfo :=
  match get_param st "tool_consumer_instance_name" none with
  | .error e => .error e
  | .ok school =>
    match context_title st with
    | .error e => .error e
    | .ok title => .ok ⟨school, title, none⟩

/-- `LTI.get_course_info`: on the edX format, split group 1 on `+` and take
parts 0, 1, 2 (absent parts become `None`); otherwise fall back. The non-str
branch under `is_edx_format = true` is unreachable. -/
def get_course_info (st : LTIState) : Except PyError CourseInfo :=
  match is_edx_format st with
  | .error e => .error e
  | .ok edx =>
    if edx then
      match get_param st "context_id" none with
      | .error e => .error e
      | .ok (some (.str cid)) =>
        match edxMatchGroup1 cid with
        | some g =>
          let part := pySplit g '+'
          .ok ⟨(part.get? 0).map .str, (part.get? 1).map .str,
               (part.get? 2).map .str⟩
        | none => course_info_fallback st
      | .ok _ => .error .typeError
    else course_info_fallback st

/-! ### Credential store (`models.py`) and its consumers -/

/-- `LTIConsumer`: `url` is a `URLField(blank=True)` — possibly empty, never
`NULL`. -/
structure LTIConsumer where
  slug : PStr
  title : PStr
  url : PStr
deriving DecidableEq

/-- `LTIPassport`. -/
structure LTIPassport where
  consumer : LTIConsumer
  title : PStr
  oauth_consumer_key : PStr
  shared_secret : PStr
  is_enabled : Bool
deriving DecidableEq

/-- `LTIRequestValidator.get_client_secret`:
`LTIPassport.objects.get(oauth_consumer_key=client_key, is_enabled=True)`
returns the unique match; `DoesNotExist` is caught and the fixed dummy secret
returned; `MultipleObjectsReturned` propagates (impossible while the
uniqueness constraint on `oauth_consumer_key` holds). -/
def get_client_secret (db : List LTIPassport) (client_key : PStr) :
    Except PyError PStr :=
  match db.filter (fun p => p.oauth_consumer_key == client_key && p.is_enabled) with
  | [] => .ok "dummy_client_sec_123456".data
  | [p] => .ok p.shared_secret
  | _ => .error .multipleObjectsReturned

/-- `LTIRequestValidator.validate_client_key`: an enabled passport with that
key exists. -/
def validate_client_key (db : List LTIPassport) (client_key : PStr) : Bool :=
  db.any (fun p => p.oauth_consumer_key == client_key && p.is_enabled)

/-- `LTI.get_consumer`: look up the enabled passport named by the verified
`oauth_consumer_key` parameter and return its consumer. A missing or
non-string key value matches no passport (`DoesNotExist`). -/
def get_consumer (db : List LTIPassport) (st : LTIState) :
    Except PyError LTIConsumer :=
  match get_param st "oauth_consumer_key" none with
  | .error e => .error e
  | .ok (some (.str key)) =>
    match db.filter (fun p => p.oauth_consumer_key == key && p.is_enabled) with
    | [] => .error .doesNotExist
    | [p] => .ok p.consumer
    | _ => .error .multipleObjectsReturned
  | .ok _ => .error .doesNotExist

/-- Value interpolation in the `f"course/{context_id}"` f-strings: a string
interpolates as itself, `None` as `"None"`; the list branch is unreachable
(`context_id` is not list-valued). -/
def formatParamValue : Option ParamValue → PStr
  | some (.str s) => s
  | none => "None".data
  | some (.list _) => "<list>".data

/-- `LTI.origin_url`: `None` when the consumer has no base URL; otherwise
join `course/{context_id}` (edX) or `course/view.php?id={context_id}`
(Moodle) onto the slash-terminated base URL, or return `None` when neither
format matches. `urljoin` itself is an external collaborator
(`urllib.parse`), passed in abstractly. -/
def origin_url (urljoin : PStr → PStr → PStr) (db : List LTIPassport)
    (st : LTIState) : Except PyError (Option PStr) :=
  match get_consumer db st with
  | .error e => .error e
  | .ok consumer =>
    if consumer.url == ([] : PStr) then .ok none
    else
      let base_url := if consumer.url.getLast? == some '/' then consumer.url
        else consumer.url ++ ['/']
      match get_param st "context_id" none with
      | .error e => .error e
      | .ok context_id =>
        match is_edx_format st with
        | .error e => .error e
        | .ok edx =>
          if edx then
            .ok (some (urljoin base_url
              ("course/".data ++ formatParamValue context_id)))
          else
            match is_moodle_format st with
            | .error e => .error e
            | .ok moodle =>
              if moodle then
                .ok (some (urljoin base_url
                  ("course/view.php?id=".data ++ formatParamValue context_id)))
              else .ok none

/-! ### Replay protection (`validator.py`) -/

/-- The replay cache: entry expiry times, with `now < expiry` meaning alive
(Django cache semantics: an entry added with timeout `t` at time `s` expires
at `s + t`; expired entries behave as absent). -/
structure ReplayCache where
  entries : List (PStr × Int)
deriving DecidableEq

/-- Whether `k` is present and unexpired at time `now`. -/
def cache_has (c : ReplayCache) (now : Int) (k : PStr) : Bool :=
  c.entries.any (fun e => e.1 == k && now < e.2)

/-- `cache.add(key, "1", timeout)`: atomically insert-if-absent with TTL;
returns whether the insert happened. -/
def cache_add (c : ReplayCache) (now : Int) (k : PStr) (timeout : Int) :
    Bool × ReplayCache :=
  if cache_has c now k then (false, c)
  else (true, ⟨(k, now + timeout) :: c.entries⟩)

/-- The cache key `f"LTI_TS_NONCE:{client_key}:{timestamp}:{nonce}"`. The
decimal timestamp string is represented by its numeric value. -/
def nonceKey (client_key : PStr) (timestamp : Nat) (nonce : PStr) : PStr :=
  "LTI_TS_NONCE:".data ++ client_key ++ [':'] ++ (toString timestamp).data
    ++ [':'] ++ nonce

/-- `LTIRequestValidator.validate_timestamp_and_nonce`: reject timestamps
older than 3600 s, then insert-if-absent of the composite key with a 3600 s
TTL — `true` on first use, `false` on replay. `now` is `time.time()` and the
timestamp is the parsed `int(timestamp)` of the decimal parameter. -/
def validate_timestamp_and_nonce (client_key : PStr) (timestamp : Nat)
    (nonce : PStr) (now : Int) (cache : ReplayCache) : Bool × ReplayCache :=
  let cache_timeout : Int := 3600
  if (timestamp : Int) < now - cache_timeout then (false, cache)
  else cache_add cache now (nonceKey client_key timestamp nonce) cache_timeout

/-! ### Credential generation (`models.py`) -/

def string_ascii_lowercase : PStr := "abcdefghijklmnopqrstuvwxyz".data

def string_ascii_uppercase : PStr := "ABCDEFGHIJKLMNOPQRSTUVWXYZ".data

def string_digits : PStr := "0123456789".data

def string_ascii_letters : PStr := string_ascii_lowercase ++ string_ascii_uppercase

/-- `string.ascii_uppercase + string.digits`. -/
def oauth_consumer_key_chars : PStr := string_ascii_uppercase ++ string_digits

/-- `string.ascii_letters + string.digits + "!#$%&*+-=?@^_"`. -/
def shared_secret_chars : PStr :=
  string_ascii_letters ++ string_digits ++ "!#$%&*+-=?@^_".data

/-- `LTIPassport.generate_consumer_key`: `secrets.choice(range(20, 30))`
characters drawn from the uppercase-alphanumeric set. Each `secrets.choice`
over a sequence is modelled as an arbitrary index reduced modulo the sequence
length, which ranges over exactly the possible outcomes. -/
def generate_consumer_key (pickSize : Nat) (pickChar : Nat → Nat) : PStr :=
  let size := 20 + pickSize % 10
  (List.range size).map (fun i =>
    oauth_consumer_key_chars.getD (pickChar i % oauth_consumer_key_chars.length) 'A')

/-- `LTIPassport.generate_shared_secret`: `secrets.choice(range(40, 60))`
characters drawn from letters, digits and the fixed punctuation set. -/
def generate_shared_secret (pickSize : Nat) (pickChar : Nat → Nat) : PStr :=
  let size := 40 + pickSize % 20
  (List.range size).map (fun i =>
    shared_secret_chars.getD (pickChar i % shared_secret_chars.length) 'a')

example : "ab".data = ['a', 'b'] := by decide
example : pyStrip " a b ".data = "a b".data := by decide
example : pySplit "a, b,c".data ',' = ["a".data, " b".data, "c".data] := by decide
example : pyJoin ',' ["a".data, "b".data] = "a,b".data := by decide
example : pyLower "AbC".data = "abc".data := by decide

/-! ## Claim theorems -/

/-- Claim C1: `validate_timestamp_and_nonce` returns `False` whenever the
timestamp is older than 3600 seconds before the current time, for every nonce
and cache state; otherwise it returns `True` and records the composite
`{client_key}:{timestamp}:{nonce}` key with a 3600-second TTL exactly when
that key is not already live in the replay cache, and returns `False` when it
is; consequently, of two identical requests within the replay window, the
first validation succeeds and the second fails. -/
theorem c1_validate_timestamp_and_nonce (client_key : PStr) (timestamp : Nat)
    (nonce : PStr) (now : Int) (cache : ReplayCache) :
    ((timestamp : Int) < now - 3600 →
      validate_timestamp_and_nonce client_key timestamp nonce now cache =
        (false, cache)) ∧
    (¬((timestamp : Int) < now - 3600) →
      (cache_has cache now (nonceKey client_key timestamp nonce) = false →
        validate_timestamp_and_nonce client_key timestamp nonce now cache =
          (true, ⟨(nonceKey client_key timestamp nonce, now + 3600) ::
            cache.entries⟩)) ∧
      (cache_has cache now (nonceKey client_key timestamp nonce) = true →
        validate_timestamp_and_nonce client_key timestamp nonce now cache =
          (false, cache))) ∧
    (∀ now2 : Int, now ≤ now2 → now2 < now + 3600 →
      (validate_timestamp_and_nonce client_key timestamp nonce now cache).1 =
        true →
      (validate_timestamp_and_nonce client_key timestamp nonce now2
        (validate_timestamp_and_nonce client_key timestamp nonce now
          cache).2).1 = false) := by
  refine ⟨?_, ?_, ?_⟩
  · intro h
    simp only [validate_timestamp_and_nonce, if_pos h]
  · intro h
    constructor
    · intro hc
      simp only [validate_timestamp_and_nonce, if_neg h, cache_add, hc,
        Bool.false_eq_true, if_false]
    · intro hc
      simp only [validate_timestamp_and_nonce, if_neg h, cache_add, hc, if_true]
  · intro now2 h1 h2 hfirst
    by_cases hold : (timestamp : Int) < now - 3600
    · rw [show validate_timestamp_and_nonce client_key timestamp nonce now cache
          = (false, cache) by simp only [validate_timestamp_and_nonce, if_pos hold]]
        at hfirst
      simp at hfirst
    · cases hc : cache_has cache now (nonceKey client_key timestamp nonce) with
      | true =>
        rw [show validate_timestamp_and_nonce client_key timestamp nonce now cache
            = (false, cache) by
          simp only [validate_timestamp_and_nonce, if_neg hold, cache_add, hc,
            if_true]] at hfirst
        simp at hfirst
      | false =>
        rw [show validate_timestamp_and_nonce client_key timestamp nonce now cache
            = (true, ⟨(nonceKey client_key timestamp nonce, now + 3600) ::
              cache.entries⟩) by
          simp only [validate_timestamp_and_nonce, if_neg hold, cache_add, hc,
            Bool.false_eq_true, if_false]]
        by_cases hold2 : (timestamp : Int) < now2 - 3600
        · simp only [validate_timestamp_and_nonce, if_pos hold2]
        · have hhas : cache_has
              ⟨(nonceKey client_key timestamp nonce, now + 3600) :: cache.entries⟩
              now2 (nonceKey client_key timestamp nonce) = true := by
            simp [cache_has, h2]
          simp only [validate_timestamp_and_nonce, if_neg hold2, cache_add, hhas,
            if_true]

/-- Witness for C1 at concrete inputs: a too-old timestamp is rejected, and a
fresh timestamp/nonce is accepted then rejected on replay. -/
theorem c1_witness :
    validate_timestamp_and_nonce "consumer".data 100 "nonce".data 5000 ⟨[]⟩ =
        (false, ⟨[]⟩) ∧
      (validate_timestamp_and_nonce "consumer".data 4000 "nonce".data 5500
        (validate_timestamp_and_nonce "consumer".data 4000 "nonce".data 5000
          ⟨[]⟩).2).1 = false :=
  ⟨(c1_validate_timestamp_and_nonce "consumer".data 100 "nonce".data 5000
      ⟨[]⟩).1 (by decide),
    (c1_validate_timestamp_and_nonce "consumer".data 4000 "nonce".data 5000
      ⟨[]⟩).2.2 5500 (by decide) (by decide) (by decide)⟩

/-- Claim C2: for each of the two Parameter Set variants (LaunchParams with
the launch schema, SelectionParams with the selection schema) and every raw
string-to-string mapping, construction succeeds iff every key is allowed (or
`custom_`/`ext_`-prefixed) and every required key is present; a disallowed key
yields an invalid-parameter error naming a disallowed key of the input, a
missing required key (with all keys allowed) yields a missing-parameter error
naming it, and a constructed container always satisfies both conditions. -/
theorem c2_params_construction :
    ∀ sch ∈ [(LAUNCH_PARAMS, LAUNCH_PARAMS_REQUIRED),
             (SELECTION_PARAMS, SELECTION_PARAMS_REQUIRED)],
    ∀ raw : List (String × PStr),
    ((∃ st, paramsInit sch.1 sch.2 raw = .ok st) ↔
      ((∀ kv ∈ raw, valid_param sch.1 kv.1 = true) ∧
        ∀ p ∈ sch.2, raw.any (fun kv => kv.1 = p) = true)) ∧
    (∀ k, paramsInit sch.1 sch.2 raw = .error (.invalid k) →
      valid_param sch.1 k = false ∧ raw.any (fun kv => kv.1 = k) = true) ∧
    ((∀ kv ∈ raw, valid_param sch.1 kv.1 = true) →
      ∀ p, paramsInit sch.1 sch.2 raw = .error (.missing p) →
        p ∈ sch.2 ∧ raw.any (fun kv => kv.1 = p) = false) ∧
    ((∃ kv ∈ raw, valid_param sch.1 kv.1 = false) →
      ∃ k, paramsInit sch.1 sch.2 raw = .error (.invalid k)) ∧
    ((∀ kv ∈ raw, valid_param sch.1 kv.1 = true) →
      (∃ p ∈ sch.2, raw.any (fun kv => kv.1 = p) = false) →
      ∃ p, paramsInit sch.1 sch.2 raw = .error (.missing p)) ∧
    (∀ st, paramsInit sch.1 sch.2 raw = .ok st →
      (∀ kv ∈ st, valid_param sch.1 kv.1 = true) ∧
        ∀ p ∈ sch.2, memParams sch.1 st p = true) := by
  intro sch _ raw
  exact paramsInit_spec sch.1 sch.2 raw

/-- Witness for C2: a launch mapping with exactly the three required keys
constructs successfully; dropping `lti_version` fails with the
missing-parameter error naming it; adding a bogus key fails with the
invalid-parameter error naming it. -/
theorem c2_witness :
    (∃ st, paramsInit LAUNCH_PARAMS LAUNCH_PARAMS_REQUIRED
      [("lti_message_type", "basic-lti-launch-request".data),
       ("lti_version", "LTI-1.0".data),
       ("resource_link_id", "df7".data)] = .ok st) ∧
    (∃ p, paramsInit LAUNCH_PARAMS LAUNCH_PARAMS_REQUIRED
      [("lti_message_type", "basic-lti-launch-request".data),
       ("resource_link_id", "df7".data)] = .error (.missing p)) ∧
    (∃ k, paramsInit LAUNCH_PARAMS LAUNCH_PARAMS_REQUIRED
      [("bogus_key", "x".data)] = .error (.invalid k)) :=
  ⟨((c2_params_construction (LAUNCH_PARAMS, LAUNCH_PARAMS_REQUIRED)
      (List.mem_cons_self _ _)
      [("lti_message_type", "basic-lti-launch-request".data),
       ("lti_version", "LTI-1.0".data),
       ("resource_link_id", "df7".data)]).1).mpr (by decide),
   ((c2_params_construction (LAUNCH_PARAMS, LAUNCH_PARAMS_REQUIRED)
      (List.mem_cons_self _ _)
      [("lti_message_type", "basic-lti-launch-request".data),
       ("resource_link_id", "df7".data)]).2.2.2.2.1 (by decide)
      ⟨"lti_version", by decide, by decide⟩),
   ((c2_params_construction (LAUNCH_PARAMS, LAUNCH_PARAMS_REQUIRED)
      (List.mem_cons_self _ _)
      [("bogus_key", "x".data)]).2.2.2.1
      ⟨("bogus_key", "x".data), by decide, by decide⟩)⟩

/-- Claim C3: before a successful `verify()` (verified flag unset),
`get_param` raises the not-verified error for every name and default; after a
successful `verify()` (verified flag set, container keys schema-valid as
construction guarantees), it returns the stored parameter value — comma-split
and trimmed for list-valued keys — when the key is present, and the supplied
default when the key is schema-valid but absent. -/
theorem c3_get_param (st : LTIState) (name : String)
    (default : Option ParamValue) :
    (st.verified = false →
      get_param st name default = .error .notVerified) ∧
    (st.verified = true →
      (∀ kv ∈ st.params, valid_param st.allowed kv.1 = true) →
      (∀ v, storeGet st.params name = some v →
        get_param st name default =
          .ok (some (if LAUNCH_PARAMS_IS_LIST.contains name
            then .list ((pySplit v ',').map pyStrip) else .str v))) ∧
      (valid_param st.allowed name = true → storeGet st.params name = none →
        get_param st name default = .ok default)) := by
  constructor
  · intro h
    rw [get_param, if_pos h]
  · intro hver hinv
    constructor
    · intro v hv
      have hvalid : valid_param st.allowed name = true :=
        hinv (name, v) (storeGet_mem hv)
      rw [get_param, if_neg (by rw [hver]; simp)]
      rw [paramsGet, if_pos hvalid, param_value, hv]
      rfl
    · intro hvalid habs
      rw [get_param, if_neg (by rw [hver]; simp)]
      rw [paramsGet, if_pos hvalid, param_value, habs]
      rfl

/-- Witness for C3: on a fresh object every access raises the not-verified
error; on a verified object a present key returns its value and a
valid-but-absent key returns the default. -/
theorem c3_witness :
    get_param LTI_init "roles" none = .error .notVerified ∧
    get_param ⟨some true, LAUNCH_PARAMS, [("context_id", "ctx".data)], true⟩
      "context_id" none = .ok (some (.str "ctx".data)) ∧
    get_param ⟨some true, LAUNCH_PARAMS, [("context_id", "ctx".data)], true⟩
      "context_title" (some (.str "dflt".data)) =
        .ok (some (.str "dflt".data)) :=
  ⟨(c3_get_param LTI_init "roles" none).1 rfl,
   (((c3_get_param ⟨some true, LAUNCH_PARAMS, [("context_id", "ctx".data)],
        true⟩ "context_id" none).2 rfl (by decide)).1 "ctx".data
      (by decide)).trans (by decide),
   ((c3_get_param ⟨some true, LAUNCH_PARAMS, [("context_id", "ctx".data)],
        true⟩ "context_title" (some (.str "dflt".data))).2 rfl (by decide)).2
      (by decide) (by decide)⟩

/-- Claim C4: while the uniqueness constraint on `oauth_consumer_key` holds,
`get_client_secret` always returns a string: the `shared_secret` of the
enabled passport whose key equals the client key when one exists, and the
fixed dummy secret (rather than a not-found error) otherwise. -/
theorem c4_get_client_secret (db : List LTIPassport) (client_key : PStr)
    (huniq : db.Pairwise
      (fun a b => a.oauth_consumer_key ≠ b.oauth_consumer_key)) :
    (∃ s, get_client_secret db client_key = .ok s) ∧
    (∀ p ∈ db, p.oauth_consumer_key = client_key → p.is_enabled = true →
      get_client_secret db client_key = .ok p.shared_secret) ∧
    ((∀ p ∈ db, ¬(p.oauth_consumer_key = client_key ∧ p.is_enabled = true)) →
      get_client_secret db client_key = .ok "dummy_client_sec_123456".data) := by
  have key_eq : ∀ p ∈ db.filter
      (fun p => p.oauth_consumer_key == client_key && p.is_enabled),
      p.oauth_consumer_key = client_key := by
    intro p hp
    have := List.of_mem_filter hp
    simp only [Bool.and_eq_true, beq_iff_eq] at this
    exact this.1
  have hcontra : ∀ p0 q0 t0, db.filter
      (fun p => p.oauth_consumer_key == client_key && p.is_enabled) =
        p0 :: q0 :: t0 → False := by
    intro p0 q0 t0 hF
    have hpw := huniq.filter
      (fun p => p.oauth_consumer_key == client_key && p.is_enabled)
    rw [hF] at hpw
    have hrel := (List.pairwise_cons.mp hpw).1 q0 (List.mem_cons_self q0 t0)
    have h1 : p0.oauth_consumer_key = client_key :=
      key_eq p0 (hF ▸ List.mem_cons_self _ _)
    have h2 : q0.oauth_consumer_key = client_key :=
      key_eq q0 (hF ▸ List.mem_cons_of_mem _ (List.mem_cons_self _ _))
    exact hrel (h1.trans h2.symm)
  refine ⟨?_, ?_, ?_⟩
  · cases hF : db.filter
        (fun p => p.oauth_consumer_key == client_key && p.is_enabled) with
    | nil =>
      refine ⟨"dummy_client_sec_123456".data, ?_⟩
      rw [get_client_secret, hF]
    | cons p0 rest =>
      cases rest with
      | nil =>
        refine ⟨p0.shared_secret, ?_⟩
        rw [get_client_secret, hF]
      | cons q0 t0 => exact absurd hF (by intro h; exact hcontra p0 q0 t0 h)
  · intro p hp hkey hen
    have hpF : p ∈ db.filter
        (fun p => p.oauth_consumer_key == client_key && p.is_enabled) :=
      List.mem_filter.mpr ⟨hp, by simp [hkey, hen]⟩
    cases hF : db.filter
        (fun p => p.oauth_consumer_key == client_key && p.is_enabled) with
    | nil =>
      rw [hF] at hpF
      simp at hpF
    | cons p0 rest =>
      cases rest with
      | nil =>
        rw [hF] at hpF
        simp only [List.mem_cons, List.not_mem_nil, or_false] at hpF
        subst hpF
        rw [get_client_secret, hF]
      | cons q0 t0 => exact absurd hF (by intro h; exact hcontra p0 q0 t0 h)
  · intro hnone
    have hF : db.filter
        (fun p => p.oauth_consumer_key == client_key && p.is_enabled) = [] := by
      rw [List.filter_eq_nil_iff]
      intro p hp
      simp only [Bool.and_eq_true, beq_iff_eq, not_and]
      intro hk
      cases he : p.is_enabled with
      | false => simp
      | true => exact absurd ⟨hk, he⟩ (hnone p hp)
    rw [get_client_secret, hF]

/-- Witness for C4: with one enabled passport in the store, its key yields its
secret and an unknown key yields the dummy secret, with no failure. -/
theorem c4_witness :
    get_client_secret
        [⟨⟨"s".data, "t".data, []⟩, "t".data, "key1".data, "sec1".data, true⟩]
        "key1".data = .ok "sec1".data ∧
      get_client_secret
        [⟨⟨"s".data, "t".data, []⟩, "t".data, "key1".data, "sec1".data, true⟩]
        "unknown".data = .ok "dummy_client_sec_123456".data :=
  ⟨(c4_get_client_secret
      [⟨⟨"s".data, "t".data, []⟩, "t".data, "key1".data, "sec1".data, true⟩]
      "key1".data (by decide)).2.1
      ⟨⟨"s".data, "t".data, []⟩, "t".data, "key1".data, "sec1".data, true⟩
      (by decide) (by decide) (by decide),
   (c4_get_client_secret
      [⟨⟨"s".data, "t".data, []⟩, "t".data, "key1".data, "sec1".data, true⟩]
      "unknown".data (by decide)).2.2 (by decide)⟩

theorem paramsInit_ok_elim {allowed required : List String}
    {raw : List (String × PStr)} {st : ParamStore}
    (h : paramsInit allowed required raw = .ok st) :
    updateParams allowed [] raw = .ok st := by
  cases hU : updateParams allowed [] raw with
  | error e =>
    rw [paramsInit, hU] at h
    simp [Except.bind] at h
  | ok st0 =>
    have hv0 : ∀ kv ∈ st0, valid_param allowed kv.1 = true :=
      updateParams_entries_valid allowed (by simp) hU
    rw [paramsInit, hU] at h
    simp only [Except.bind, checkKeysValid_ok allowed hv0] at h
    obtain ⟨rfl, _⟩ := checkRequired_eq_ok h
    rfl

theorem storeGet_urlencoded (isList : List String) (st : ParamStore)
    (k : String) :
    storeGet (urlencoded isList st) k = (storeGet st k).map
      (fun v => if isList.contains k
        then pyJoin ',' ((pySplit v ',').map pyStrip) else v) :=
  storeGet_map_values
    (fun k v => if isList.contains k
      then pyJoin ',' ((pySplit v ',').map pyStrip) else v) st k

theorem urlencoded_keys (isList : List String) (st : ParamStore) :
    (urlencoded isList st).map Prod.fst = st.map Prod.fst := by
  rw [urlencoded, List.map_map]
  rfl

/-- Claim C5: serializing a constructed Parameter Set to its urlencoded form
and re-parsing that form into a new Parameter Set of the same schema succeeds
and yields identical logical values for every key: a list-valued key reads as
the comma-split, whitespace-trimmed element list (order preserved), and any
other key reads back as its raw string. -/
theorem c5_urlencoded_roundtrip (allowed required isList : List String)
    (raw : List (String × PStr)) (st : ParamStore)
    (h : paramsInit allowed required raw = .ok st) :
    (∃ st2, paramsInit allowed required (urlencoded isList st) = .ok st2 ∧
      ∀ k, param_value isList st2 k = param_value isList st k) ∧
    (∀ k v, storeGet st k = some v →
      (isList.contains k = true →
        param_value isList st k =
          some (.list ((pySplit v ',').map pyStrip))) ∧
      (isList.contains k = false →
        param_value isList st k = some (.str v))) := by
  have hU := paramsInit_ok_elim h
  have hval : ∀ kv ∈ st, valid_param allowed kv.1 = true :=
    updateParams_entries_valid allowed (by simp) hU
  have hreq : ∀ p ∈ required, memParams allowed st p = true :=
    ((paramsInit_spec allowed required raw).2.2.2.2.2 st h).2
  have hnodup : (st.map Prod.fst).Nodup :=
    updateParams_nodup_keys allowed (by simp) hU
  constructor
  · have hU2 : updateParams allowed [] (urlencoded isList st) =
        .ok ([] ++ urlencoded isList st) := by
      refine updateParams_append allowed [] (urlencoded isList st)
        (by intro kv _; rfl) ?_ ?_
      · rw [urlencoded_keys]
        exact hnodup
      · intro kv hkv
        obtain ⟨kv0, hkv0, rfl⟩ := List.mem_map.mp hkv
        exact hval kv0 hkv0
    rw [List.nil_append] at hU2
    have hval2 : ∀ kv ∈ urlencoded isList st,
        valid_param allowed kv.1 = true := by
      intro kv hkv
      obtain ⟨kv0, hkv0, rfl⟩ := List.mem_map.mp hkv
      exact hval kv0 hkv0
    refine ⟨urlencoded isList st, ?_, ?_⟩
    · rw [paramsInit, hU2]
      simp only [Except.bind, checkKeysValid_ok allowed hval2]
      refine checkRequired_ok allowed required ?_
      intro p hp
      have hm := hreq p hp
      rw [memParams, Bool.and_eq_true] at hm
      rw [memParams, Bool.and_eq_true]
      refine ⟨hm.1, ?_⟩
      rw [storeGet_urlencoded]
      cases hg : storeGet st p with
      | none => rw [hg] at hm; simp at hm
      | some v => simp
    · intro k
      rw [param_value, param_value, storeGet_urlencoded]
      cases hg : storeGet st k with
      | none => rfl
      | some v =>
        cases hc : isList.contains k with
        | false => simp [hc]
        | true =>
          simp only [hc, if_true, Option.map_some, Option.map]
          rw [split_strip_roundtrip]
  · intro k v hv
    constructor
    · intro hc
      rw [param_value, hv]
      simp only [hc, if_true, Option.map_some, Option.map]
    · intro hc
      rw [param_value, hv]
      simp only [hc, Bool.false_eq_true, if_false, Option.map_some, Option.map]

/-- Witness for C5: a one-key container with a list-valued key whose value has
stray whitespace round-trips through `urlencoded` with identical logical
values. -/
theorem c5_witness : ∃ st2,
    paramsInit ["roles"] [] (urlencoded ["roles"]
      [("roles", " A ,b".data)]) = .ok st2 ∧
    ∀ k, param_value ["roles"] st2 k =
      param_value ["roles"] [("roles", " A ,b".data)] k :=
  (c5_urlencoded_roundtrip ["roles"] [] ["roles"] [("roles", " A ,b".data)]
    [("roles", " A ,b".data)] (by decide)).1

theorem except_ok_bool_eq_true_iff {b : Bool} :
    (Except.ok b : Except PyError Bool) = .ok true ↔ b = true := by
  constructor
  · intro h
    injection h
  · intro h
    rw [h]

/-- Claim C6: on a verified request, `roles` is the lower-cased (comma-split,
whitespace-trimmed) list from the `roles` parameter, empty when the parameter
is absent; `is_student` is true iff that list meets {student, learner},
`is_instructor` iff it meets {instructor, teacher, staff}, `is_administrator`
iff it contains administrator, and `can_edit_content` is true iff
`is_administrator` or `is_instructor` is. -/
theorem c6_roles (st : LTIState) (hver : st.verified = true)
    (hsch : st.allowed = LAUNCH_PARAMS ∨ st.allowed = SELECTION_PARAMS) :
    (storeGet st.params "roles" = none → roles st = .ok []) ∧
    (∀ v, storeGet st.params "roles" = some v →
      roles st = .ok (((pySplit v ',').map pyStrip).map pyLower)) ∧
    (∀ rs, roles st = .ok rs →
      (is_student st = .ok true ↔
        (LTIRole.STUDENT ∈ rs ∨ LTIRole.LEARNER ∈ rs)) ∧
      (is_instructor st = .ok true ↔
        (LTIRole.INSTRUCTOR ∈ rs ∨ LTIRole.TEACHER ∈ rs ∨
          LTIRole.STAFF ∈ rs)) ∧
      (is_administrator st = .ok true ↔ LTIRole.ADMINISTRATOR ∈ rs) ∧
      (can_edit_content st = .ok true ↔
        (is_administrator st = .ok true ∨ is_instructor st = .ok true))) := by
  have hvalid : valid_param st.allowed "roles" = true := by
    rcases hsch with h | h <;> rw [h] <;> decide
  have hif : ¬(st.verified = false) := by
    rw [hver]
    simp
  refine ⟨?_, ?_, ?_⟩
  · intro habs
    rw [roles, get_param, if_neg hif, paramsGet, if_pos hvalid, param_value,
      habs]
    rfl
  · intro v hv
    rw [roles, get_param, if_neg hif, paramsGet, if_pos hvalid, param_value,
      hv]
    rfl
  · intro rs hrs
    have hadm : is_administrator st =
        .ok ([LTIRole.ADMINISTRATOR].any (fun r => rs.contains r)) := by
      rw [is_administrator, _has_any_of_roles, hrs]
    have hins : is_instructor st =
        .ok ([LTIRole.INSTRUCTOR, LTIRole.TEACHER, LTIRole.STAFF].any
          (fun r => rs.contains r)) := by
      rw [is_instructor, _has_any_of_roles, hrs]
    refine ⟨?_, ?_, ?_, ?_⟩
    · rw [is_student, _has_any_of_roles, hrs, except_ok_bool_eq_true_iff]
      simp
    · rw [hins, except_ok_bool_eq_true_iff]
      simp
    · rw [hadm, except_ok_bool_eq_true_iff]
      simp
    · rw [can_edit_content, hadm, hins, except_ok_bool_eq_true_iff,
        except_ok_bool_eq_true_iff]
      cases ha : [LTIRole.ADMINISTRATOR].any (fun r => rs.contains r) with
      | true => simp
      | false => simp

/-- Witness for C6: the spec example `roles = "Student,Moderator"` gives the
lower-cased list, `is_student` true and `is_instructor` false. -/
theorem c6_witness :
    roles ⟨some true, LAUNCH_PARAMS,
        [("roles", "Student,Moderator".data)], true⟩ =
      .ok ["student".data, "moderator".data] ∧
    is_student ⟨some true, LAUNCH_PARAMS,
        [("roles", "Student,Moderator".data)], true⟩ = .ok true ∧
    is_instructor ⟨some true, LAUNCH_PARAMS,
        [("roles", "Student,Moderator".data)], true⟩ = .ok false := by
  have h := c6_roles
    ⟨some true, LAUNCH_PARAMS, [("roles", "Student,Moderator".data)], true⟩
    rfl (Or.inl rfl)
  have hroles : roles ⟨some true, LAUNCH_PARAMS,
      [("roles", "Student,Moderator".data)], true⟩ =
        .ok ["student".data, "moderator".data] :=
    (h.2.1 "Student,Moderator".data rfl).trans (by decide)
  refine ⟨hroles, ?_, ?_⟩
  · exact ((h.2.2 ["student".data, "moderator".data] hroles).1).mpr
      (Or.inl (by decide))
  · decide

/-- Claim C7: on a verified request whose `context_id` is present, if it
matches the edX pattern `course-v<digit>:...` then `get_course_info` splits
the part after the colon on `+` and returns school/course/run from the first
three parts (missing parts null); otherwise it returns the consumer instance
name, the context title (or the context id when the title is absent), and a
null run. -/
theorem c7_get_course_info (st : LTIState) (hver : st.verified = true)
    (hsch : st.allowed = LAUNCH_PARAMS ∨ st.allowed = SELECTION_PARAMS)
    (cid : PStr) (hcid : storeGet st.params "context_id" = some cid) :
    (edxSearch cid = true → ∀ g, edxMatchGroup1 cid = some g →
      get_course_info st = .ok
        ⟨((pySplit g '+').get? 0).map .str,
         ((pySplit g '+').get? 1).map .str,
         ((pySplit g '+').get? 2).map .str⟩) ∧
    (edxSearch cid = false →
      get_course_info st = .ok
        ⟨(storeGet st.params "tool_consumer_instance_name").map .str,
         some (.str ((storeGet st.params "context_title").getD cid)),
         none⟩) := by
  have hif : ¬(st.verified = false) := by
    rw [hver]
    simp
  have hgp : ∀ (name : String) (d : Option ParamValue),
      valid_param st.allowed name = true →
      LAUNCH_PARAMS_IS_LIST.contains name = false →
      get_param st name d = .ok (match storeGet st.params name with
        | some w => some (.str w)
        | none => d) := by
    intro name d hvn hnl
    rw [get_param, if_neg hif, paramsGet, if_pos hvn, param_value]
    simp only [hnl, Bool.false_eq_true, if_false]
    cases hw : storeGet st.params name with
    | some w => rfl
    | none => rfl
  have hvC : valid_param st.allowed "context_id" = true := by
    rcases hsch with h | h <;> rw [h] <;> decide
  have hvT : valid_param st.allowed "context_title" = true := by
    rcases hsch with h | h <;> rw [h] <;> decide
  have hvN : valid_param st.allowed "tool_consumer_instance_name" = true := by
    rcases hsch with h | h <;> rw [h] <;> decide
  have hgp_cid : get_param st "context_id" none = .ok (some (.str cid)) := by
    rw [hgp "context_id" none hvC (by decide), hcid]
  have hedx : is_edx_format st = .ok (edxSearch cid) := by
    rw [is_edx_format, hgp_cid]
  constructor
  · intro hs g hg
    simp only [get_course_info, hedx, hs, if_true, hgp_cid, hg]
  · intro hs
    have hct : context_title st =
        .ok (some (.str ((storeGet st.params "context_title").getD cid))) := by
      simp only [context_title, hgp_cid,
        hgp "context_title" (some (.str cid)) hvT (by decide)]
      cases htt : storeGet st.params "context_title" with
      | some w => rfl
      | none => rfl
    have hfb : course_info_fallback st = .ok
        ⟨(storeGet st.params "tool_consumer_instance_name").map .str,
         some (.str ((storeGet st.params "context_title").getD cid)),
         none⟩ := by
      simp only [course_info_fallback,
        hgp "tool_consumer_instance_name" none hvN (by decide), hct]
      cases hn : storeGet st.params "tool_consumer_instance_name" with
      | some w => rfl
      | none => rfl
    simp only [get_course_info, hedx, hs, Bool.false_eq_true, if_false]
    exact hfb

/-- Witness for C7: the spec example
`context_id = "course-v1:fooschool+mathematics+0042"` yields school
"fooschool", course "mathematics", run "0042". -/
theorem c7_witness :
    get_course_info ⟨some true, LAUNCH_PARAMS,
        [("context_id", "course-v1:fooschool+mathematics+0042".data)],
        true⟩ =
      .ok ⟨some (.str "fooschool".data), some (.str "mathematics".data),
        some (.str "0042".data)⟩ :=
  ((c7_get_course_info ⟨some true, LAUNCH_PARAMS,
      [("context_id", "course-v1:fooschool+mathematics+0042".data)], true⟩
      rfl (Or.inl rfl) "course-v1:fooschool+mathematics+0042".data rfl).1
    (by decide) "fooschool+mathematics+0042".data (by decide)).trans
    (by decide)

theorem getD_mem_of_lt {α : Type} (l : List α) (n : Nat) (d : α)
    (h : n < l.length) : l.getD n d ∈ l := by
  rw [List.getD_eq_getElem l d h]
  exact List.getElem_mem h

/-- Claim C8: every generated consumer key has between 20 and 30 characters,
all uppercase-alphanumeric, and every generated shared secret has between 40
and 60 characters drawn from letters, digits and the fixed punctuation set —
in particular keys are at least 20 and secrets at least 40 characters, for
every outcome of the random choices. -/
theorem c8_generated_credentials (pickSize : Nat) (pickChar : Nat → Nat) :
    (20 ≤ (generate_consumer_key pickSize pickChar).length ∧
     (generate_consumer_key pickSize pickChar).length ≤ 30 ∧
     ∀ c ∈ generate_consumer_key pickSize pickChar,
       c ∈ oauth_consumer_key_chars) ∧
    (40 ≤ (generate_shared_secret pickSize pickChar).length ∧
     (generate_shared_secret pickSize pickChar).length ≤ 60 ∧
     ∀ c ∈ generate_shared_secret pickSize pickChar,
       c ∈ shared_secret_chars) := by
  have hlen1 : (generate_consumer_key pickSize pickChar).length =
      20 + pickSize % 10 := by
    rw [generate_consumer_key]
    simp
  have hlen2 : (generate_shared_secret pickSize pickChar).length =
      40 + pickSize % 20 := by
    rw [generate_shared_secret]
    simp
  have hmod10 : pickSize % 10 < 10 := Nat.mod_lt pickSize (by norm_num)
  have hmod20 : pickSize % 20 < 20 := Nat.mod_lt pickSize (by norm_num)
  refine ⟨⟨?_, ?_, ?_⟩, ?_, ?_, ?_⟩
  · omega
  · omega
  · intro c hc
    rw [generate_consumer_key] at hc
    simp only [List.mem_map] at hc
    obtain ⟨i, _, rfl⟩ := hc
    refine getD_mem_of_lt oauth_consumer_key_chars _ 'A' ?_
    exact Nat.mod_lt _ (by decide)
  · omega
  · omega
  · intro c hc
    rw [generate_shared_secret] at hc
    simp only [List.mem_map] at hc
    obtain ⟨i, _, rfl⟩ := hc
    refine getD_mem_of_lt shared_secret_chars _ 'a' ?_
    exact Nat.mod_lt _ (by decide)

/-- Claim C9: when `verify()` fails — whether during parameter processing or
signature validation — on an object whose parameter set is empty and whose
verified flag is unset, the resulting object still has an empty parameter
set and an unset verified flag, `is_valid` is false, and every `get_param`
call raises the not-verified error. -/
theorem c9_verify_failure (st : LTIState) (raw : ParamStore)
    (oauthValid : Bool) (hp : st.params = []) (hv : st.verified = false) :
    ∀ st' e, verify st raw oauthValid = (st', some e) →
      st'.params = [] ∧ st'.verified = false ∧ is_valid st' = false ∧
      ∀ name default, get_param st' name default = .error .notVerified := by
  intro st' e h
  rw [verify] at h
  cases hpp : _process_params raw with
  | error e0 =>
    rw [hpp] at h
    injection h with h1 h2
    subst h1
    refine ⟨hp, hv, ?_, ?_⟩
    · rw [is_valid, hv]
      rfl
    · intro name default
      rw [get_param, if_pos hv]
  | ok pr =>
    rw [hpp] at h
    cases ho : oauthValid with
    | true =>
      rw [ho] at h
      simp only [if_pos] at h
      injection h with h1 h2
      simp at h2
    | false =>
      rw [ho] at h
      simp only [Bool.false_eq_true, if_false] at h
      injection h with h1 h2
      subst h1
      refine ⟨hp, hv, ?_, ?_⟩
      · rw [is_valid]
        simp [hv]
      · intro name default
        rw [get_param]
        simp only [hv]
        rfl

/-- Witness for C9: a `verify()` call on a fresh object with an empty POST
fails during parameter processing and leaves the object unchanged, with
`is_valid` false and parameter access still raising. -/
theorem c9_witness :
    verify LTI_init [] true =
        (LTI_init, some (.processParams (.missing "lti_message_type"))) ∧
      is_valid LTI_init = false ∧
      ∀ name default, get_param LTI_init name default = .error .notVerified := by
  have h := c9_verify_failure LTI_init [] true rfl rfl LTI_init
    (.processParams (.missing "lti_message_type")) (by decide)
  exact ⟨by decide, h.2.2.1, h.2.2.2⟩

/-- Counterexample to C10 as stated: a successfully verified request without
`context_id`, whose consumer exists but has an empty base URL. `origin_url`
returns `None` (the guard `if not base_url: return None` fires before the
context check) instead of failing, so "get_course_info and origin_url also
fail on such a request" is false for `origin_url`. -/
theorem c10_counterexample :
    (⟨some true, LAUNCH_PARAMS, [("oauth_consumer_key", "key1".data)],
        true⟩ : LTIState).verified = true ∧
    storeGet (⟨some true, LAUNCH_PARAMS,
        [("oauth_consumer_key", "key1".data)], true⟩ : LTIState).params
      "context_id" = none ∧
    origin_url (fun a b => a ++ b)
        [⟨⟨"s".data, "t".data, []⟩, "t".data, "key1".data, "sec".data, true⟩]
        ⟨some true, LAUNCH_PARAMS, [("oauth_consumer_key", "key1".data)],
          true⟩ = .ok none := by
  decide

/-- Claim C10, amended: on a successfully verified request whose parameter
set has no `context_id`, `is_edx_format` fails with a `TypeError` (the regex
is applied to the `None` default) and `get_course_info` consequently fails as
well; `origin_url` — when the consumer lookup succeeds — fails with the same
`TypeError` exactly when the consumer's base URL is non-empty, and returns
null (before reaching the context check) when the base URL is empty. -/
theorem c10_missing_context_id (st : LTIState) (db : List LTIPassport)
    (hver : st.verified = true)
    (hcid : storeGet st.params "context_id" = none) :
    is_edx_format st = .error .typeError ∧
    get_course_info st = .error .typeError ∧
    (∀ (urljoin : PStr → PStr → PStr) (c : LTIConsumer),
      get_consumer db st = .ok c →
      (c.url = [] → origin_url urljoin db st = .ok none) ∧
      (c.url ≠ [] → origin_url urljoin db st = .error .typeError)) := by
  have hif : ¬(st.verified = false) := by
    rw [hver]
    simp
  have hgp : get_param st "context_id" none = .ok none := by
    rw [get_param, if_neg hif]
    by_cases hval : valid_param st.allowed "context_id" = true
    · rw [paramsGet, if_pos hval, param_value, hcid]
      rfl
    · rw [paramsGet, if_neg hval]
  have hedx : is_edx_format st = .error .typeError := by
    rw [is_edx_format, hgp]
  refine ⟨hedx, ?_, ?_⟩
  · rw [get_course_info, hedx]
  · intro urljoin c hc
    constructor
    · intro hurl
      rw [origin_url, hc]
      simp [hurl]
    · intro hurl
      have hbe : (c.url == ([] : PStr)) = false := by
        simp [hurl]
      simp only [origin_url, hc, hbe, Bool.false_eq_true, if_false, hgp, hedx]
    
/-- Witness for the amended C10: on a concrete verified request without
`context_id`, `is_edx_format` and `get_course_info` raise the type error;
`origin_url` raises it when the consumer URL is non-empty and returns null
when it is empty. -/
theorem c10_witness :
    is_edx_format ⟨some true, LAUNCH_PARAMS,
        [("oauth_consumer_key", "key1".data)], true⟩ = .error .typeError ∧
    get_course_info ⟨some true, LAUNCH_PARAMS,
        [("oauth_consumer_key", "key1".data)], true⟩ = .error .typeError ∧
    origin_url (fun a b => a ++ b)
        [⟨⟨"s".data, "t".data, "http://lms".data⟩, "t".data, "key1".data,
          "sec".data, true⟩]
        ⟨some true, LAUNCH_PARAMS, [("oauth_consumer_key", "key1".data)],
          true⟩ = .error .typeError ∧
    origin_url (fun a b => a ++ b)
        [⟨⟨"s".data, "t".data, []⟩, "t".data, "key1".data, "sec".data, true⟩]
        ⟨some true, LAUNCH_PARAMS, [("oauth_consumer_key", "key1".data)],
          true⟩ = .ok none := by
  have h1 := c10_missing_context_id
    ⟨some true, LAUNCH_PARAMS, [("oauth_consumer_key", "key1".data)], true⟩
    [⟨⟨"s".data, "t".data, "http://lms".data⟩, "t".data, "key1".data,
      "sec".data, true⟩] rfl rfl
  have h2 := c10_missing_context_id
    ⟨some true, LAUNCH_PARAMS, [("oauth_consumer_key", "key1".data)], true⟩
    [⟨⟨"s".data, "t".data, []⟩, "t".data, "key1".data, "sec".data, true⟩]
    rfl rfl
  refine ⟨h1.1, h1.2.1, ?_, ?_⟩
  · exact (h1.2.2 (fun a b => a ++ b)
      ⟨"s".data, "t".data, "http://lms".data⟩ (by decide)).2 (by decide)
  · exact (h2.2.2 (fun a b => a ++ b)
      ⟨"s".data, "t".data, []⟩ (by decide)).1 rfl
